import Mathlib

/-!
Shallow embedding of the stdex streaming DEFLATE decompressor
(src/io/deflate/mod.rs, src/io/deflate/ring_buffer.rs, src/huffman.rs,
src/io/bitio/bitreader_lsb.rs, src/collections/bitstring.rs) and proofs
about the claims of the specification.

Machine integers are modelled as Nat with explicit reductions modulo
2^w at the operations where the Rust code can wrap.  Fallible Rust code
(io::Result / SimpleResult) is modelled by the RustOutcome type below;
Rust panics (assert!, array index out of bounds, unreachable!) are the
distinct `panicked` outcome, so that "returns an error" and "crashes"
can be told apart.  Byte buffers (`Vec<u8>`, `&[u8]` and the byte
sources behind `Read`) are modelled as a length together with a
contents function, `ByteBuf`; slice copies become pointwise overrides.
Source while-loops whose termination is data-dependent carry an
explicit structural counter; every such counter is instantiated large
enough that its exhaustion is unreachable, or the theorems quantify
over it. -/

namespace Stdex

/-- Error values of the embedded code: end of input (io::ErrorKind::UnexpectedEof
from read_exact), deflate-level typed errors, the ring buffer underflow error,
SimpleError strings from the huffman module, and exhaustion of the explicit
counters used to model the source's while-loops. -/
inductive Err where
  | eof : Err
  | general : Err
  | nonMatchingLenNLen : Err
  | badHuffmanCodes : Err
  | invalidBType : Err
  | unexpectedEOF : Err
  | invalidLitLenCode : Err
  | ringUnderflow (max readLen : Nat) : Err
  | simple (msg : String) : Err
  | outOfFuel : Err
deriving DecidableEq, Repr

/-- Outcome of running a piece of Rust code: a normal return value, a
returned error (the Err of a Result), or a panic (assertion failure,
index out of bounds, unreachable!). -/
inductive RustOutcome (α : Type) where
  | ok : α → RustOutcome α
  | err : Err → RustOutcome α
  | panicked : String → RustOutcome α
deriving DecidableEq, Repr

namespace RustOutcome

def bind {α β : Type} : RustOutcome α → (α → RustOutcome β) → RustOutcome β
  | ok a, f => f a
  | err e, _ => err e
  | panicked m, _ => panicked m

def map {α β : Type} (f : α → β) : RustOutcome α → RustOutcome β
  | ok a => ok (f a)
  | err e => err e
  | panicked m => panicked m

end RustOutcome

instance : Monad RustOutcome where
  pure := RustOutcome.ok
  bind := RustOutcome.bind

/-! ## Byte buffers

`Vec<u8>`, byte slices and the sequential byte sources behind `Read`
are all modelled as a length plus a contents function (indices past the
length are irrelevant). -/

structure ByteBuf where
  size : Nat
  get : Nat → Nat

namespace ByteBuf

def ofList (l : List Nat) : ByteBuf :=
  { size := l.length, get := fun i => l.getD i 0 }

def toList (b : ByteBuf) : List Nat :=
  (List.range b.size).map b.get

/-- Drop the first `n` bytes (advancing a byte source). -/
def drop (b : ByteBuf) (n : Nat) : ByteBuf :=
  { size := b.size - n, get := fun i => b.get (i + n) }

/-- A view of the first `n` bytes. -/
def view (b : ByteBuf) (n : Nat) : ByteBuf :=
  { size := n, get := b.get }

/-- One array-element store `b[i] = v`. -/
def setByte (b : ByteBuf) (i v : Nat) : ByteBuf :=
  { size := b.size, get := fun j => if j = i then v else b.get j }

/-- `dst[dstStart..dstStart+n].copy_from_slice(&src[srcStart..srcStart+n])`
as a pointwise override (callers check the Rust slice-length panics). -/
def copyFrom (dst : ByteBuf) (dstStart : Nat) (src : ByteBuf) (srcStart n : Nat) :
    ByteBuf :=
  { size := dst.size
    get := fun i =>
      if dstStart ≤ i ∧ i < dstStart + n then src.get (srcStart + (i - dstStart))
      else dst.get i }

end ByteBuf

/-! ## CompactBitString27 (src/collections/bitstring.rs)

`CodeString` = `CompactBitString27`: a u32 packing a length (top 5 bits)
and up to 27 bits of code data (low 27 bits).  We model the packed u32
as a Nat.  The two-argument constructor `CodeString::new(len, bits)`
comes from the `BitString` trait, whose defining module is not among the
source files; `from_len_and_bits` (which is in the source) packs
`((len as u32) << 27) | bits`. -/

namespace CodeString

def U32 : Nat := 4294967296

def BITS_MASK : Nat := 134217727

def LEN_MASK : Nat := U32 - 1 - BITS_MASK

def LEN_ONE : Nat := 134217728

/-- CompactBitString27::from_len_and_bits: `((len as u32) << 27) | bits`. -/
def from_len_and_bits (len bits : Nat) : Nat :=
  (((len % U32) <<< 27) % U32) ||| (bits % U32)

/-- Modelled from the spec: the `BitString` trait (its module is not among
the source files) provides the two-argument constructor used as
`CodeString::new(len, bits)` throughout huffman.rs and deflate/mod.rs; the
spec describes the type as "length + bits packed into one integer", i.e.
the packing of `from_len_and_bits`. -/
def new (len bits : Nat) : Nat :=
  from_len_and_bits len bits

/-- CompactBitString27::len: `(self.0 >> 27) as usize`. -/
def len (x : Nat) : Nat := (x % U32) >>> 27

/-- CompactBitString27::bits: `self.0 & BITS_MASK`. -/
def bits (x : Nat) : Nat := x &&& BITS_MASK

/-- CompactBitString27::pop_bit_front: removes and returns the
most-significant stored bit.  Returns (bit, rest). -/
def pop_bit_front (x : Nat) : Nat × Nat :=
  let new_len := len x - 1
  let result := (x >>> new_len) &&& 1
  (result, ((x &&& LEN_MASK) - LEN_ONE) ||| (bits x &&& ((1 <<< new_len) - 1)))

end CodeString

/-! ## RingBuffer (src/io/deflate/ring_buffer.rs) -/

/-- The sliding window: a Vec of bytes (`data.size` = capacity) and a
write cursor.  `RingBuffer::new(capacity)` leaves the Vec contents
uninitialized (`set_len`), so construction takes the arbitrary initial
contents as a parameter. -/
structure RingBuffer where
  data : ByteBuf
  write : Nat

namespace RingBuffer

/-- RingBuffer::new: capacity-sized buffer with unspecified contents and
write cursor 0. -/
def new (uninitData : ByteBuf) : RingBuffer :=
  { data := uninitData, write := 0 }

/-- One copy segment of RingBuffer::self_copy: `n` iterations of
`data[write] = data[read]; read += 1; write += 1` (indices stay inside
the buffer for every call the source makes). -/
def copySeg (data : ByteBuf) (read write : Nat) : Nat → ByteBuf × Nat × Nat
  | 0 => (data, read, write)
  | n + 1 => copySeg (data.setByte write (data.get read)) (read + 1) (write + 1) n

/-- RingBuffer::self_copy(distance, len): checks `distance > capacity`,
then copies in (at most) two segments, each bounded by the distance of
the read and write cursors to the end of the buffer.  The `% 0` a Rust
`%` would panic on when the capacity is 0 is modelled by `panicked`. -/
def self_copy (rb : RingBuffer) (distance length : Nat) : RustOutcome RingBuffer :=
  if distance > rb.data.size then
    .err (.ringUnderflow rb.data.size distance)
  else if rb.data.size = 0 then
    .panicked "attempt to calculate the remainder with a divisor of zero"
  else
    let n := rb.data.size
    let write0 := rb.write
    let read0 := (write0 + n - distance) % n
    let can_write := n - write0
    let can_read := n - read0
    let len1 := min (min can_write can_read) length
    let (data1, read1, write1) := copySeg rb.data read0 write0 len1
    let length1 := length - len1
    let read2 := read1 % n
    let write2 := write1 % n
    let can_write2 := n - write2
    let can_read2 := n - read2
    let len2 := min (min can_write2 can_read2) length1
    let (data2, _, write3) := copySeg data1 read2 write2 len2
    .ok { data := data2, write := write3 % n }

/-- One step of the ideal byte-by-byte LZ77 self copy used to state what
the claim demands of self_copy: each written byte equals the window
content `distance` positions before the write cursor at the moment that
byte is written. -/
def lz77Step (n distance : Nat) : ByteBuf × Nat → ByteBuf × Nat
  | (data, w) => (data.setByte w (data.get ((w + n - distance) % n)), (w + 1) % n)

/-- The byte-by-byte overlapping LZ77 self-copy semantics demanded by the
claim: `len` single-byte copy steps from `distance` back, each advancing
the cursor modulo the capacity. -/
def selfCopySpec (rb : RingBuffer) (distance length : Nat) : RingBuffer :=
  let n := rb.data.size
  let (data, w) := Nat.rec (motive := fun _ => ByteBuf × Nat)
    (rb.data, rb.write) (fun _ st => lz77Step n distance st) length
  { data := data, write := w }

/-- The loop of RingBuffer::copy_out.  The remaining byte count drops by
at least 1 every iteration (the capacity is positive in every reachable
call), so the structural counter `steps` (instantiated with `bufLen` by
copy_out) can never run out first. -/
def copy_out_loop (data : ByteBuf) : Nat → Nat → Nat → List Nat
  | 0, _, _ => []
  | steps + 1, read_start, remaining =>
    if remaining = 0 then []
    else
      let to_write := min (data.size - read_start) remaining
      if to_write = 0 then []
      else
        (List.range to_write).map (fun k => data.get (read_start + k)) ++
          copy_out_loop data steps 0 (remaining - to_write)

/-- RingBuffer::copy_out: copy `bufLen` bytes out of the window starting
`back_offset % capacity` slots behind the write cursor, wrapping past
the end of the buffer.  Total function: the (unreachable in the
decompressor) capacity-0 case yields []. -/
def copy_out (rb : RingBuffer) (bufLen back_offset : Nat) : List Nat :=
  if rb.data.size = 0 then []
  else
    let back := back_offset % rb.data.size
    let read_start := (rb.write + rb.data.size - back) % rb.data.size
    copy_out_loop rb.data bufLen read_start bufLen

/-- <RingBuffer as io::Write>::write: append `buf` at the write cursor,
wrapping once; always reports the whole buffer written.  The
copy_from_slice calls panic (in Rust) when the ranges do not line up;
every reachable call satisfies `buf.size <= capacity`. -/
def writeAll (rb : RingBuffer) (buf : ByteBuf) : RustOutcome (Nat × RingBuffer) :=
  let len := rb.data.size
  let total := buf.size
  let write_end := rb.write + total
  if write_end > len then
    let to_write := len - rb.write
    if rb.write + to_write > len ∨ to_write > total then
      .panicked "source slice length does not match destination slice length"
    else
      let data1 := rb.data.copyFrom rb.write buf 0 to_write
      let write_end2 := total - to_write
      if write_end2 > len then
        .panicked "source slice length does not match destination slice length"
      else
        let data2 := data1.copyFrom 0 buf to_write write_end2
        .ok (total, { data := data2, write := write_end2 })
  else
    let data1 := rb.data.copyFrom rb.write buf 0 total
    .ok (total, { data := data1, write := write_end })

end RingBuffer

/-! ## BitReaderLSB (src/io/bitio/bitreader_lsb.rs)

The underlying `Read` byte source is modelled as the bytes not yet
consumed (a `std::io::Cursor`). -/

/-- crate::io::read_u8: read one byte from the source, io error on EOF. -/
def read_u8 (r : ByteBuf) : RustOutcome (Nat × ByteBuf) :=
  if r.size = 0 then .err .eof else .ok (r.get 0 % 256, r.drop 1)

/-- crate::io::read_u16_le: read two bytes, little-endian. -/
def read_u16_le (r : ByteBuf) : RustOutcome (Nat × ByteBuf) :=
  if r.size < 2 then .err .eof
  else .ok (r.get 0 % 256 + 256 * (r.get 1 % 256), r.drop 2)

/-- read_exact(n): consume exactly n bytes or fail with an EOF io error. -/
def read_exact (r : ByteBuf) (n : Nat) : RustOutcome (ByteBuf × ByteBuf) :=
  if n ≤ r.size then .ok (r.view n, r.drop n) else .err .eof

structure BitReaderLSB where
  reader : ByteBuf
  buffer : Nat
  mask : Nat

namespace BitReaderLSB

def mk0 (reader : ByteBuf) : BitReaderLSB :=
  { reader := reader, buffer := 0, mask := 1 }

/-- BitReaderLSB::read_bit. -/
def read_bit (br : BitReaderLSB) : RustOutcome (Nat × BitReaderLSB) := do
  let (buffer, reader) ←
    if br.mask = 1 then
      (read_u8 br.reader).map (fun p => (p.1, p.2))
    else
      pure (br.buffer, br.reader)
  let result := if br.mask &&& buffer = 0 then 0 else 1
  let mask := (br.mask <<< 1) % CodeString.U32
  let mask := if mask = 256 then 1 else mask
  pure (result, { reader := reader, buffer := buffer, mask := mask })

/-- First loop of read_bits_32: drain bits of the partially read byte. -/
def readBitsPhase1 (buffer : Nat) (result mask_shift : Nat) (mask : Nat) :
    Nat → Nat × Nat × Nat × Nat
  | 0 => (result, mask_shift, mask, 0)
  | count + 1 =>
    if mask = 1 then (result, mask_shift, mask, count + 1)
    else
      let result := if mask &&& buffer ≠ 0 then result ||| (1 <<< mask_shift) else result
      let mask := (mask <<< 1) % CodeString.U32
      let mask := if mask = 256 then 1 else mask
      readBitsPhase1 buffer result (mask_shift + 1) mask count

/-- Second loop of read_bits_32: whole bytes.  The loop runs while
`count >= 8` and decreases `count` by 8 each time, so the structural
counter `steps` (instantiated with `count` by read_bits_32) can never
run out first. -/
def readBitsPhase2 (reader : ByteBuf) (result mask_shift : Nat) :
    Nat → Nat → RustOutcome (Nat × Nat × Nat × ByteBuf)
  | 0, count =>
    if count ≥ 8 then .err .outOfFuel else pure (result, mask_shift, count, reader)
  | steps + 1, count =>
    if count ≥ 8 then do
      let (b, reader) ← read_u8 reader
      readBitsPhase2 reader (result ||| (b <<< mask_shift)) (mask_shift + 8) steps (count - 8)
    else
      pure (result, mask_shift, count, reader)

/-- Third loop of read_bits_32: remaining bits; this loop refills
`self.buffer` when the mask has wrapped. -/
def readBitsPhase3 (reader : ByteBuf) (buffer : Nat) (result mask_shift mask : Nat) :
    Nat → RustOutcome (Nat × Nat × Nat × ByteBuf)
  | 0 => pure (result, mask, buffer, reader)
  | count + 1 => do
    let (buffer, reader) ←
      if mask = 1 then
        (read_u8 reader).map (fun p => (p.1, p.2))
      else
        pure (buffer, reader)
    let result := if mask &&& buffer ≠ 0 then result ||| (1 <<< mask_shift) else result
    let mask := (mask <<< 1) % CodeString.U32
    let mask := if mask = 256 then 1 else mask
    readBitsPhase3 reader buffer result (mask_shift + 1) mask count

/-- BitReaderLSB::read_bits_32(count): panics (assert) when count > 32;
otherwise reads `count` bits, first bits in the least significant
positions of the result. -/
def read_bits_32 (br : BitReaderLSB) (count : Nat) : RustOutcome (Nat × BitReaderLSB) :=
  if count > 32 then .panicked "assertion failed: count <= 32"
  else
    let (result, mask_shift, mask, count) := readBitsPhase1 br.buffer 0 0 br.mask count
    match readBitsPhase2 br.reader result mask_shift count count with
    | .ok (result, mask_shift, count, reader) =>
      match readBitsPhase3 reader br.buffer result mask_shift mask count with
      | .ok (result, mask, buffer, reader) =>
        .ok (result, { reader := reader, buffer := buffer, mask := mask })
      | .err e => .err e
      | .panicked m => .panicked m
    | .err e => .err e
    | .panicked m => .panicked m

/-- BitReaderLSB::flush_byte. -/
def flush_byte (br : BitReaderLSB) : BitReaderLSB :=
  { br with buffer := 0, mask := 1 }

end BitReaderLSB

/-! ## Huffman codes (src/huffman.rs)

`Code<T>` with `T` instantiated at the unsigned-integer callers of the
repository is modelled as a pair (value, packed code string); the `T`
values never approach their type's range in any caller, so `value` is a
plain Nat with `increment` = `+ 1`.  Length arrays stay Lean lists
(they have at most 320 entries in every caller). -/

namespace Code

/-- The histogram pass of canonical_from_lengths_impl:
`for i in code_lengths { length_counts[*i] += 1 }`.  Zero lengths are
counted too (in `length_counts[0]`). -/
def lengthCounts (code_lengths : List Nat) : Nat → Nat :=
  fun j => code_lengths.count j

/-- The claim's recurrence for the first code of each length:
iterating length = 1..=L, `code = (code + count[length-1]) << 1`
starting from 0, in u32 arithmetic. -/
def firstCode (count : Nat → Nat) : Nat → Nat
  | 0 => 0
  | l + 1 => ((firstCode count l + count l) <<< 1) % CodeString.U32

/-- The next_code-filling pass of canonical_from_lengths_impl: returns
the table (a function; unwritten slots read as the 0 the model
initializes them to) and the final code value, after iterating
bits = 1..=maxLength. -/
def buildNextCode (count : Nat → Nat) : Nat → (Nat → Nat) × Nat
  | 0 => (fun _ => 0, 0)
  | m + 1 =>
    let (tbl, code) := buildNextCode count m
    let code := ((code + count m) <<< 1) % CodeString.U32
    (fun j => if j = m + 1 then code else tbl j, code)

/-- The assignment pass of canonical_from_lengths_impl: walk the length
array; a symbol of nonzero length j receives `CodeString::new(j, next_code[j])`
and `next_code[j] += 1` (u32); `value.increment()` on every symbol. -/
def assignCodes (next_code : Nat → Nat) (value : Nat) :
    List Nat → List (Nat × Nat)
  | [] => []
  | j :: rest =>
    if j ≠ 0 then
      (value, CodeString.new j (next_code j)) ::
        assignCodes
          (fun k => if k = j then (next_code j + 1) % CodeString.U32 else next_code k)
          (value + 1) rest
    else
      assignCodes next_code (value + 1) rest

/-- Code::canonical_from_lengths_impl (always Ok). -/
def canonical_from_lengths_impl (first_value : Nat) (code_lengths : List Nat)
    (max_length : Nat) : RustOutcome (List (Nat × Nat)) :=
  .ok (assignCodes (buildNextCode (lengthCounts code_lengths) max_length).1
    first_value code_lengths)

/-- Rust's `iter().max()` over the length list (callers unwrap it on a
nonempty list). -/
def maxLength (code_lengths : List Nat) : Nat :=
  code_lengths.foldr max 0

/-- Code::canonical_from_lengths: `assert_ne!(code_lengths.len(), 0)` is
an assertion failure (panic) on an empty array, not a returned error;
otherwise delegates to the impl with the maximum length. -/
def canonical_from_lengths (first_value : Nat) (code_lengths : List Nat) :
    RustOutcome (List (Nat × Nat)) :=
  if code_lengths.length = 0 then .panicked "no code lengths"
  else canonical_from_lengths_impl first_value code_lengths (maxLength code_lengths)

end Code

/-! ## Code trees (src/huffman.rs, Node<T>) -/

inductive Node where
  | leaf : Nat → Node
  | branch : Node → Node → Node
deriving DecidableEq, Repr

namespace Node

/-- The partition loop of from_codes: pop the front bit of every code,
splitting into the bit-0 and bit-1 child lists; a zero-length code here
is the "not a prefix code" error. -/
def partitionCodes (codes : List (Nat × Nat)) :
    RustOutcome (List (Nat × Nat) × List (Nat × Nat)) :=
  match codes with
  | [] => .ok ([], [])
  | (value, code) :: rest => do
    if CodeString.len code = 0 then
      .err (.simple "not a prefix code")
    else
      let (bit, code) := CodeString.pop_bit_front code
      let (c0, c1) ← partitionCodes rest
      if bit = 0 then .ok ((value, code) :: c0, c1)
      else .ok (c0, (value, code) :: c1)

/-- Node::from_codes, with an explicit structural counter standing in
for the recursion on ever-shorter code strings. -/
def from_codes_fuel : Nat → List (Nat × Nat) → RustOutcome Node
  | 0, _ => .err .outOfFuel
  | _ + 1, [] => .err (.simple "empty huffman code list")
  | _ + 1, [(value, code)] =>
    if CodeString.len code ≠ 0 then
      .err (.simple "not a huffman code, superfluous bits")
    else .ok (leaf value)
  | fuel + 1, codes => do
    let (c0, c1) ← partitionCodes codes
    let child0 ← from_codes_fuel fuel c0
    let child1 ← from_codes_fuel fuel c1
    .ok (branch child0 child1)

/-- Counter bound: every recursion level strictly shortens the total bit
count of a nonempty list, so total bits + list length + 1 dominates the
recursion depth. -/
def from_codes (codes : List (Nat × Nat)) : RustOutcome Node :=
  from_codes_fuel ((codes.map (fun c => CodeString.len c.2)).sum + codes.length + 1)
    codes

/-- Node::read_value: walk the trie one decoded bit at a time. -/
def read_value : Node → BitReaderLSB → RustOutcome (Nat × BitReaderLSB)
  | leaf value, br => .ok (value, br)
  | branch child0 child1, br => do
    let (bit, br) ← br.read_bit
    if bit = 0 then child0.read_value br else child1.read_value br

end Node

/-! ## The DEFLATE decompressor (src/io/deflate/mod.rs) -/

structure Codes where
  litlen : List (Nat × Nat)
  distance : List (Nat × Nat)
deriving DecidableEq, Repr

/-- fixed_huffman_codes: the hard-coded RFC 1951 fixed tables, built by
four loops with incrementing bit patterns (0b00110000 = 48,
0b110010000 = 400, 0b11000000 = 192). -/
def fixed_huffman_codes : Codes :=
  let litlen :=
    ((List.range 144).map (fun i => (i, CodeString.new 8 (48 + i)))) ++
    ((List.range 112).map (fun i => (144 + i, CodeString.new 9 (400 + i)))) ++
    ((List.range 24).map (fun i => (256 + i, CodeString.new 7 i))) ++
    ((List.range 8).map (fun i => (280 + i, CodeString.new 8 (192 + i))))
  let distance := (List.range 32).map (fun i => (i, CodeString.new 5 i))
  { litlen := litlen, distance := distance }

/-- The `.or_else(|_| Err(DeflateDecompressorError::BadHuffmanCodes))?`
pattern of deflate/mod.rs: any returned error becomes BadHuffmanCodes;
panics unwind through it. -/
def mapBadHuffman {α : Type} : RustOutcome α → RustOutcome α
  | .ok a => .ok a
  | .err _ => .err .badHuffmanCodes
  | .panicked m => .panicked m

def SWIZZLE : List Nat :=
  [16, 17, 18, 0, 8, 7, 9, 6, 10, 5, 11, 4, 12, 3, 13, 2, 14, 1, 15]

/-- The `for i in 0..hclen` loop of dynamic_huffman_codes: read `n`
3-bit values into the 19-slot array at the swizzled positions starting
at index `i`. -/
def readCodeLengthCodes : Nat → BitReaderLSB → List Nat → Nat →
    RustOutcome (List Nat × BitReaderLSB)
  | 0, br, cls, _ => .ok (cls, br)
  | n + 1, br, cls, i =>
    match br.read_bits_32 3 with
    | .err e => .err e
    | .panicked m => .panicked m
    | .ok (v, br) => readCodeLengthCodes n br (cls.set (SWIZZLE.getD i 0) v) (i + 1)

/-- One indexed write `code_lengths[i] = v` into the 320-entry array of
dynamic_huffman_codes: a Rust index out of bounds is a panic. -/
def setLength (cls : List Nat) (i v : Nat) : RustOutcome (List Nat) :=
  if i < 320 then .ok (cls.set i v) else
    .panicked "index out of bounds: the len is 320"

/-- The `for _ in 0..repeat_len` loop of the symbol-16 branch: write
`previous` at `count` consecutive positions starting at `start`. -/
def writeRun (cls : List Nat) (start previous : Nat) : Nat → RustOutcome (List Nat)
  | 0 => .ok cls
  | count + 1 =>
    match setLength cls start previous with
    | .err e => .err e
    | .panicked m => .panicked m
    | .ok cls => writeRun cls (start + 1) previous count

/-- The `while i < hlit + hdist` run-length expansion loop of
dynamic_huffman_codes: symbols 0-15 are literal lengths (remembered as
`previous`), 16 repeats `previous` (2 extra bits + 3), 17 and 18 skip
ahead emitting zeros (3 extra bits + 3, 7 extra bits + 11), anything
else is a BadHuffmanCodes error.  The loop index `i` strictly increases
every iteration, so the structural counter `steps` (instantiated with
`total` by dynamic_huffman_codes) can never run out first. -/
def expandCodeLengths (tree : Node) (total : Nat) :
    Nat → BitReaderLSB → Nat → Nat → List Nat → RustOutcome (List Nat × BitReaderLSB)
  | 0, br, i, _, cls => if i < total then .err .outOfFuel else .ok (cls, br)
  | steps + 1, br, i, previous, cls =>
    if i < total then
      match tree.read_value br with
      | .err e => .err e
      | .panicked m => .panicked m
      | .ok (n, br) =>
        if n ≤ 15 then
          match setLength cls i n with
          | .err e => .err e
          | .panicked m => .panicked m
          | .ok cls => expandCodeLengths tree total steps br (i + 1) n cls
        else if n = 16 then
          match br.read_bits_32 2 with
          | .err e => .err e
          | .panicked m => .panicked m
          | .ok (v, br) =>
            match writeRun cls i previous (v + 3) with
            | .err e => .err e
            | .panicked m => .panicked m
            | .ok cls => expandCodeLengths tree total steps br (i + (v + 3)) previous cls
        else if n = 17 then
          match br.read_bits_32 3 with
          | .err e => .err e
          | .panicked m => .panicked m
          | .ok (v, br) => expandCodeLengths tree total steps br (i + (v + 3)) 0 cls
        else if n = 18 then
          match br.read_bits_32 7 with
          | .err e => .err e
          | .panicked m => .panicked m
          | .ok (v, br) => expandCodeLengths tree total steps br (i + (v + 11)) 0 cls
        else .err .badHuffmanCodes
    else .ok (cls, br)

/-- dynamic_huffman_codes: read HLIT/HDIST/HCLEN, the swizzled
code-length code, expand the HLIT+HDIST length entries, split at HLIT
and build both canonical code lists. -/
def dynamic_huffman_codes (br : BitReaderLSB) : RustOutcome (Codes × BitReaderLSB) := do
  let (v, br) ← br.read_bits_32 5
  let hlit := v + 257
  let (v, br) ← br.read_bits_32 5
  let hdist := v + 1
  let (v, br) ← br.read_bits_32 4
  let hclen := v + 4
  let (cls19, br) ← readCodeLengthCodes hclen br (List.replicate 19 0) 0
  let codes ← mapBadHuffman (Code.canonical_from_lengths 0 cls19)
  let tree ← mapBadHuffman (Node.from_codes codes)
  let (cls, br) ← expandCodeLengths tree (hlit + hdist) (hlit + hdist) br 0 0
    (List.replicate 320 0)
  let litlen ← mapBadHuffman (Code.canonical_from_lengths 0 (cls.take hlit))
  let distance ← mapBadHuffman (Code.canonical_from_lengths 0 (cls.drop hlit))
  pure ({ litlen := litlen, distance := distance }, br)

def LENGTH_BASE : List Nat :=
  [3, 4, 5, 6, 7, 8, 9, 10, 11, 13] ++
    [15, 17, 19, 23, 27, 31, 35, 43, 51, 59] ++
    [67, 83, 99, 115, 131, 163, 195, 227, 258]

def LENGTH_EXTRA : List Nat :=
  [0, 0, 0, 0, 0, 0, 0, 0, 1, 1] ++ [1, 1, 2, 2, 2, 2, 3, 3, 3, 3] ++
    [4, 4, 4, 4, 5, 5, 5, 5, 0]

def DIST_BASE : List Nat :=
  [1, 2, 3, 4, 5, 7, 9, 13, 17, 25, 33] ++
    [49, 65, 97, 129, 193, 257, 385, 513, 769, 1025, 1537] ++
    [2049, 3073, 4097, 6145, 8193, 12289, 16385, 24577, 0, 0]

def DIST_EXTRA : List Nat :=
  [0, 0, 0, 0, 1, 1, 2, 2, 3, 3, 4] ++ [4, 5, 5, 6, 6, 7, 7, 8, 8, 9, 9] ++
    [10, 10, 11, 11, 12, 12, 13, 13, 0, 0]

/-- read_length_distance_pair: `code` is the length-code index (0-28);
the distance symbol comes from the distance tree and indexes the 32-slot
distance tables - a decoded distance symbol >= 32 (possible for crafted
dynamic trees) panics like the Rust array index would.  The `as u16`
casts are the reductions mod 65536. -/
def read_length_distance_pair (code : Nat) (dist_tree : Node) (br : BitReaderLSB) :
    RustOutcome ((Nat × Nat) × BitReaderLSB) := do
  let len := LENGTH_BASE.getD code 0
  let (len, br) ←
    if LENGTH_EXTRA.getD code 0 ≠ 0 then do
      let (v, br) ← br.read_bits_32 (LENGTH_EXTRA.getD code 0)
      pure (len + v, br)
    else pure (len, br)
  let (dcode, br) ← dist_tree.read_value br
  if dcode < 32 then do
    let dist := DIST_BASE.getD dcode 0
    let (dist, br) ←
      if DIST_EXTRA.getD dcode 0 ≠ 0 then do
        let (v, br) ← br.read_bits_32 (DIST_EXTRA.getD dcode 0)
        pure (dist + v, br)
      else pure (dist, br)
    pure ((len % 65536, dist % 65536), br)
  else .panicked "index out of bounds: the len is 32"

structure HuffmanState where
  litlen_tree : Node
  distance_tree : Node
  distance : Nat
  copy_len : Nat
deriving DecidableEq, Repr

inductive DState where
  | uncompressed : Bool → Nat → DState
  | huffman : Bool → HuffmanState → DState
  | complete : DState
deriving DecidableEq, Repr

/-- DeflateDecompressorState::from_bitreader: parse one block header. -/
def DState.from_bitreader (br : BitReaderLSB) : RustOutcome (DState × BitReaderLSB) := do
  let (b, br) ← br.read_bit
  let bfinal := b ≠ 0
  let (btype, br) ← br.read_bits_32 2
  if btype = 0 then do
    let br := br.flush_byte
    let (len, reader) ← read_u16_le br.reader
    let (nlen, reader) ← read_u16_le reader
    let br := { br with reader := reader }
    if len ≠ 65535 - nlen then .err .nonMatchingLenNLen
    else .ok (DState.uncompressed bfinal len, br)
  else if btype = 1 ∨ btype = 2 then do
    let (codes, br) ←
      if btype = 1 then pure (fixed_huffman_codes, br)
      else dynamic_huffman_codes br
    let litlen_tree ← mapBadHuffman (Node.from_codes codes.litlen)
    let distance_tree ← mapBadHuffman (Node.from_codes codes.distance)
    .ok (DState.huffman bfinal
      { litlen_tree := litlen_tree
        distance_tree := distance_tree
        distance := 0
        copy_len := 0 }, br)
  else if btype = 3 then .err .invalidBType
  else .panicked "internal error: entered unreachable code"

structure DeflateDecompressor where
  bitreader : BitReaderLSB
  state : DState
  window : RingBuffer
  available : Nat

/-- DeflateDecompressor::new: parse the first block header; the window
is a fresh 32768-byte ring buffer (its uninitialized contents are
modelled as zeros; no claim settled here reads a window slot before it
is written). -/
def DeflateDecompressor.new (reader : ByteBuf) : RustOutcome DeflateDecompressor := do
  let br := BitReaderLSB.mk0 reader
  let (state, br) ← DState.from_bitreader br
  pure { bitreader := br
         state := state
         window := RingBuffer.new { size := 32768, get := fun _ => 0 }
         available := 0 }

/-- crate::io::write_u8 into the ring buffer (write_all of one byte). -/
def write_u8 (rb : RingBuffer) (v : Nat) : RustOutcome RingBuffer :=
  (rb.writeAll { size := 1, get := fun _ => v % 256 }).map (fun p => p.2)

/-- io_copy: move `byte_count` bytes from the byte source into the
window in chunks of at most 16384 (read_exact + write); the remaining
count drops by at least 1 every iteration, so the structural counter
`steps` (instantiated with `byte_count` by io_copy) can never run out
first. -/
def io_copy_loop : Nat → ByteBuf → RingBuffer → Nat →
    RustOutcome (ByteBuf × RingBuffer)
  | 0, reader, writer, byte_count =>
    if byte_count = 0 then .ok (reader, writer) else .err .outOfFuel
  | steps + 1, reader, writer, byte_count =>
    if byte_count = 0 then .ok (reader, writer)
    else
      let to_read := min 16384 byte_count
      match read_exact reader to_read with
      | .err e => .err e
      | .panicked m => .panicked m
      | .ok (buf, reader) =>
        match writer.writeAll buf with
        | .err e => .err e
        | .panicked m => .panicked m
        | .ok (_, writer) => io_copy_loop steps reader writer (byte_count - to_read)

def io_copy (reader : ByteBuf) (writer : RingBuffer) (byte_count : Nat) :
    RustOutcome (ByteBuf × RingBuffer) :=
  io_copy_loop byte_count reader writer byte_count

/-- One iteration of the `while required > self.available` loop of
DeflateDecompressor::make_available: either the loop stops (returning
the io::Result and the decompressor, kept through `&mut self` even on
error paths) or it continues with an updated decompressor. -/
inductive LoopStep where
  | next (s : DeflateDecompressor)
  | stop (r : RustOutcome Nat) (s : DeflateDecompressor)

/-- The `?`-style propagation used inside the loop body: on Ok continue
with the value, on Err or panic stop, keeping the decompressor `s`. -/
def LoopStep.bindOutcome {α : Type} (s : DeflateDecompressor) (o : RustOutcome α)
    (k : α → LoopStep) : LoopStep :=
  match o with
  | .ok a => k a
  | .err e => .stop (.err e) s
  | .panicked m => .stop (.panicked m) s

/-- The `if let Some(bfinal) = state_change` block at the bottom of the
loop: a final block completes the stream, otherwise the next block
header is parsed. -/
def state_change (bfinal : Bool) (s : DeflateDecompressor) : LoopStep :=
  if bfinal then .next { s with state := DState.complete }
  else
    LoopStep.bindOutcome s (DState.from_bitreader s.bitreader)
      (fun p => .next { s with state := p.1, bitreader := p.2 })

/-- One iteration of the make_available loop (see make_available_loop). -/
def make_available_step (required : Nat) (s : DeflateDecompressor) : LoopStep :=
  if required ≤ s.available then .stop (.ok s.available) s
  else
    match s.state with
    | DState.uncompressed bfinal unc =>
      let can_read := 32768 - s.available
      let to_read := min unc can_read
      LoopStep.bindOutcome s (io_copy s.bitreader.reader s.window to_read) fun rw2 =>
        let s := { s with
          bitreader := { s.bitreader with reader := rw2.1 }
          window := rw2.2
          available := s.available + to_read
          state := DState.uncompressed bfinal (unc - to_read) }
        if unc - to_read = 0 then state_change bfinal s
        else .next s
    | DState.huffman bfinal hs =>
      if hs.copy_len = 0 then
        LoopStep.bindOutcome s (hs.litlen_tree.read_value s.bitreader) fun vbr =>
          let value := vbr.1
          let s := { s with bitreader := vbr.2 }
          if value ≤ 255 then
            LoopStep.bindOutcome s (write_u8 s.window value) fun window =>
              .next { s with window := window, available := s.available + 1 }
          else if value = 256 then state_change bfinal s
          else if value ≤ 285 then
            LoopStep.bindOutcome s
              (read_length_distance_pair (value - 257) hs.distance_tree s.bitreader)
              fun ldbr =>
                .next { s with
                  bitreader := ldbr.2
                  state := DState.huffman bfinal
                    { hs with distance := ldbr.1.2, copy_len := ldbr.1.1 } }
          else if value ≤ 287 then .stop (.err .invalidLitLenCode) s
          else .stop (.panicked "internal error: entered unreachable code") s
      else
        let copy_len := min hs.copy_len (required - s.available)
        LoopStep.bindOutcome s (s.window.self_copy hs.distance copy_len) fun window =>
          .next { s with
            window := window
            available := s.available + copy_len
            state := DState.huffman bfinal
              { hs with copy_len := hs.copy_len - copy_len } }
    | DState.complete => .stop (.ok s.available) s

/-- The `while required > self.available` loop, iterating the step with
an explicit structural counter. -/
def make_available_loop (required : Nat) :
    Nat -> DeflateDecompressor -> RustOutcome Nat × DeflateDecompressor
  | 0, s => (.err .outOfFuel, s)
  | fuel + 1, s =>
    match make_available_step required s with
    | .stop r s => (r, s)
    | .next s => make_available_loop required fuel s

/-- DeflateDecompressor::make_available: asserts `required <= 32768`
(a panic, not an error), then runs the loop. -/
def make_available (fuel : Nat) (s : DeflateDecompressor) (required : Nat) :
    RustOutcome Nat × DeflateDecompressor :=
  if required > 32768 then (.panicked "too many bytes requested at once", s)
  else make_available_loop required fuel s

/-- Result of one `<DeflateDecompressor as Read>::read` call: the
io::Result return value (a byte count on success), the bytes the call
physically wrote into the caller's buffer (only the first `outcome`
of them are advertised to the caller), and the decompressor
afterwards. -/
structure ReadResult where
  outcome : RustOutcome Nat
  placed : List Nat
  state : DeflateDecompressor

/-- <DeflateDecompressor as Read>::read.  `rsf` is `read_so_far`, `acc`
the bytes already written to the buffer by earlier loop iterations of
the same call; a fresh call starts with both empty (see `dread`).  Reads
of more than 32768 bytes recurse on a 32768-byte sub-buffer. -/
def dreadAux : Nat → DeflateDecompressor → Nat → Nat → List Nat → ReadResult
  | 0, s, _, _, acc => { outcome := .err .outOfFuel, placed := acc, state := s }
  | fuel + 1, s, bufLen, rsf, acc =>
    if bufLen - rsf > 32768 then
      let r := dreadAux fuel s 32768 0 []
      match r.outcome with
      | .ok 0 => { outcome := .ok rsf, placed := acc ++ r.placed, state := r.state }
      | .ok n => dreadAux fuel r.state bufLen (rsf + n) (acc ++ r.placed)
      | .err e =>
        if rsf = 0 then { outcome := .err e, placed := acc ++ r.placed, state := r.state }
        else { outcome := .ok rsf, placed := acc ++ r.placed, state := r.state }
      | .panicked m => { outcome := .panicked m, placed := acc ++ r.placed, state := r.state }
    else
      let to_read := bufLen - rsf
      match make_available fuel s to_read with
      | (.ok 0, s) => { outcome := .ok 0, placed := acc, state := s }
      | (.ok available, s) =>
        let to_read := min available to_read
        let bytes := s.window.copy_out to_read available
        { outcome := .ok (rsf + to_read)
          placed := acc ++ bytes
          state := { s with available := available - to_read } }
      | (.err e, s) =>
        if rsf = 0 then { outcome := .err e, placed := acc, state := s }
        else { outcome := .ok rsf, placed := acc, state := s }
      | (.panicked m, s) => { outcome := .panicked m, placed := acc, state := s }

/-- One read call on a buffer of `bufLen` bytes. -/
def dread (fuel : Nat) (s : DeflateDecompressor) (bufLen : Nat) : ReadResult :=
  dreadAux fuel s bufLen 0 []

/-! ## Concrete streams and drivers used by the claims -/

/-- Test driver: repeated read calls with a fixed buffer size, counting
the total number of bytes the calls advertise, until a call reports 0
bytes or fails. -/
def readCountRepeatedly : Nat → DeflateDecompressor → Nat → Nat → Nat
  | 0, _, _, total => total
  | calls + 1, s, chunk, total =>
    match (dread 1000 s chunk).outcome with
    | .ok 0 => total
    | .ok n => readCountRepeatedly calls (dread 1000 s chunk).state chunk (total + n)
    | .err _ => total
    | .panicked _ => total

/-- Test driver: construct a decompressor over `input` and perform one
read call with a `bufLen`-byte buffer, reporting the read's outcome and
the bytes it placed. -/
def readOnce (input : ByteBuf) (bufLen : Nat) : RustOutcome (RustOutcome Nat × List Nat) :=
  (DeflateDecompressor.new input).map fun d =>
    ((dread 1000 d bufLen).outcome, (dread 1000 d bufLen).placed)

/-- A deflate stream consisting of one stored (uncompressed) block:
BFINAL=1 BTYPE=00 (header byte 0x01), LEN=32768 (0x00 0x80),
NLEN=0x7FFF (0xFF 0x7F), then 32768 literal bytes of value 7; its
decompressed output is 32768 copies of 7. -/
def c5Input : ByteBuf :=
  { size := 5 + 32768, get := fun i => [1, 0, 128, 255, 127].getD i 7 }

/-- A stored block announcing LEN=4 (header 0x01, LEN=0x0004,
NLEN=0xFFFB) whose byte data is cut off after 2 of the 4 bytes: the
stream determines output bytes [10, 20] before the truncation point. -/
def c7TruncInput : ByteBuf := ByteBuf.ofList [1, 4, 0, 251, 255, 10, 20]

/-- The same stored block with all four data bytes present. -/
def c7FullInput : ByteBuf := ByteBuf.ofList [1, 4, 0, 251, 255, 10, 20, 30, 40]

/-- Decompressor state mid-stream: an uncompressed block with 2 bytes
left to deliver, both present in the byte source. -/
def c2State : DeflateDecompressor :=
  { bitreader := BitReaderLSB.mk0 (ByteBuf.ofList [10, 20])
    state := DState.uncompressed true 2
    window := RingBuffer.new { size := 32768, get := fun _ => 0 }
    available := 0 }

/-- Bytes of a dynamic block body (the data dynamic_huffman_codes
consumes, i.e. everything after BFINAL/BTYPE): HLIT=31+257=288,
HDIST=31+1=32, HCLEN=0+4=4; code-length code lengths 1,0,1,0 for
symbols 16,17,18,0 (so the code-length tree decodes bit 0 to symbol 16
and bit 1 to symbol 18); then symbol 18 with extra 127 (skip 138),
symbol 18 with extra 127 (skip 138), symbol 18 with extra 32 (skip 43,
reaching position 319 of 320), and symbol 16 with extra 0 (repeat 3:
positions 319, 320, ...). -/
def c9Input : ByteBuf := ByteBuf.ofList [255, 67, 16, 252, 255, 7, 1]

/-- An 8-byte ring buffer holding bytes 1..8 with the write cursor at 7,
about to perform an overlapping distance-1 self copy that crosses the
wrap boundary. -/
def c1Buffer : RingBuffer :=
  { data := ByteBuf.ofList [1, 2, 3, 4, 5, 6, 7, 8], write := 7 }

/-- Decompressor state mid-stream: an uncompressed block with 3 bytes
left to deliver, all present in the byte source (used to show the
uncompressed branch may exceed the requested count). -/
def c2aState : DeflateDecompressor :=
  { bitreader := BitReaderLSB.mk0 (ByteBuf.ofList [5, 6, 7])
    state := DState.uncompressed true 3
    window := RingBuffer.new { size := 32768, get := fun _ => 0 }
    available := 0 }

/-- Decompressor state with a completed stream (used as a witness input). -/
def cCompleteState : DeflateDecompressor :=
  { bitreader := BitReaderLSB.mk0 (ByteBuf.ofList [])
    state := DState.complete
    window := RingBuffer.new { size := 32768, get := fun _ => 0 }
    available := 0 }

def RustOutcome.getOr {α : Type} (dfl : α) : RustOutcome α → α
  | .ok a => a
  | .err _ => dfl
  | .panicked _ => dfl

/-- The decompressor parsed from the truncated stored block (the header
is complete, so construction succeeds). -/
def c7TruncState : DeflateDecompressor :=
  (DeflateDecompressor.new c7TruncInput).getOr c2State

/-- The code-length tree used by the amended bounds statements for the
expansion loop: bit 0 decodes to symbol 1 (a literal length), bit 1 to
symbol 16 (repeat previous). -/
def c9Tree : Node := Node.branch (Node.leaf 1) (Node.leaf 16)

/-- The canonical assignment as the claim words it: one pair per symbol
of nonzero length, in ascending symbol order; a symbol at position `s`
of length L receives the code `firstCode L + (number of earlier symbols
of the same length)` (u32 arithmetic), where firstCode follows the
recurrence `code = (code + count[length-1]) << 1` over 1..=L starting
from 0 and count is the histogram of the length array. -/
def canonicalAssignment (fv : Nat) (ls : List Nat) : List (Nat × Nat) :=
  (List.range ls.length).filterMap fun s =>
    let L := ls.getD s 0
    if L = 0 then none
    else some (fv + s,
      CodeString.new L
        ((Code.firstCode (Code.lengthCounts ls) L + (ls.take s).count L) % CodeString.U32))

/-- The fixed literal/length code lengths of RFC 1951 as the claim
states them: symbols 0-143 length 8, 144-255 length 9, 256-279 length
7, 280-287 length 8. -/
def fixedLitlenLengths : List Nat :=
  List.replicate 144 8 ++ List.replicate 112 9 ++ List.replicate 24 7 ++ List.replicate 8 8

/-- The fixed distance code lengths: symbols 0-31, length 5 each. -/
def fixedDistanceLengths : List Nat := List.replicate 32 5

/-! ## Theorems about the claims -/

set_option maxRecDepth 40000
set_option maxHeartbeats 2000000

/-- C1 (code_bug): the self-copy of the claim's own example works
(writing [1,2,3] into an empty 8-byte window and self-copying
distance 3, len 5 yields [1,2,3,1,2,3,1,2] with the cursor at 0), but
the two-segment copy of RingBuffer::self_copy drops bytes when the read
and the write cursor both wrap: at write cursor 7 of a full 8-byte
window, self_copy(1, 3) writes only 2 of the 3 requested bytes and
advances the cursor by 2 (to 1), while the byte-by-byte LZ77 semantics
demanded by the claim writes 3 bytes (slot 1 also becomes 7) and leaves
the cursor at 2. -/
theorem selfCopy_wrap_boundary_drops_bytes :
    ((RingBuffer.new (ByteBuf.ofList [0, 0, 0, 0, 0, 0, 0, 0])).writeAll
        (ByteBuf.ofList [1, 2, 3])).bind
      (fun p => (p.2.self_copy 3 5).map (fun rb => (rb.data.toList, rb.write))) =
      .ok ([1, 2, 3, 1, 2, 3, 1, 2], 0) ∧
    (c1Buffer.self_copy 1 3).map (fun rb => (rb.data.toList, rb.write)) =
      .ok ([7, 2, 3, 4, 5, 6, 7, 7], 1) ∧
    ((c1Buffer.selfCopySpec 1 3).data.toList, (c1Buffer.selfCopySpec 1 3).write) =
      ([7, 7, 3, 4, 5, 6, 7, 7], 2) := by
  refine ⟨by decide, by decide, by decide⟩

/-- C3 (counterexample): a self-copy on a freshly constructed window
(zero bytes written so far) with distance 5 (within the capacity 8)
succeeds instead of failing with WindowUnderflow, although the distance
exceeds the number of bytes written so far. -/
theorem selfCopy_no_underflow_check_cex :
    ((RingBuffer.new (ByteBuf.ofList [0, 0, 0, 0, 0, 0, 0, 0])).self_copy 5 1).map
      (fun rb => rb.write) = .ok 1 := by decide

/-- C3 (amended): RingBuffer::self_copy fails with the underflow error
exactly when the distance exceeds the window capacity; the number of
bytes written so far plays no role (the buffer does not track it). -/
theorem selfCopy_underflow_iff_distance_gt_capacity :
    (∀ rb : RingBuffer, ∀ distance length, distance > rb.data.size →
      rb.self_copy distance length = .err (.ringUnderflow rb.data.size distance)) ∧
    (∀ rb : RingBuffer, ∀ distance length e, rb.self_copy distance length = .err e →
      distance > rb.data.size ∧ e = .ringUnderflow rb.data.size distance) := by
  constructor
  · intro rb distance length h
    simp [RingBuffer.self_copy, h]
  · intro rb distance length e h
    by_cases hd : distance > rb.data.size
    · simp [RingBuffer.self_copy, hd] at h
      exact ⟨hd, h.symm⟩
    · exfalso
      by_cases hz : rb.data.size = 0
      · have hd0 : distance = 0 := by omega
        simp [RingBuffer.self_copy, hd, hz, hd0] at h
      · simp [RingBuffer.self_copy, hd, hz] at h

/-- C3 (witness): the amended theorem applied to an 8-byte window and
distance 9. -/
theorem selfCopy_underflow_iff_distance_gt_capacity_witness :
    (RingBuffer.new (ByteBuf.ofList [0, 0, 0, 0, 0, 0, 0, 0])).self_copy 9 1 =
      .err (.ringUnderflow 8 9) := by
  have h := selfCopy_underflow_iff_distance_gt_capacity.1
    (RingBuffer.new (ByteBuf.ofList [0, 0, 0, 0, 0, 0, 0, 0])) 9 1 (by decide)
  simpa using h

/-- C8 (counterexample): canonical code construction on an empty length
array is an assertion failure (a panic), not a returned error value. -/
theorem canonical_empty_panics_cex :
    Code.canonical_from_lengths 0 [] = .panicked "no code lengths" := by decide

/-- C8 (amended): an empty code-length array makes
Code::canonical_from_lengths crash with the assertion "no code lengths"
rather than return an error; every non-empty array yields Ok (so the
BadHuffmanCodes mapping at the deflate call sites is never triggered by
this function's own result). -/
theorem canonical_empty_is_assert_amended (first_value : Nat) (ls : List Nat) :
    (ls = [] → Code.canonical_from_lengths first_value ls = .panicked "no code lengths") ∧
    (ls ≠ [] → ∃ cs, Code.canonical_from_lengths first_value ls = .ok cs) := by
  constructor
  · intro h
    subst h
    rfl
  · intro h
    rw [Code.canonical_from_lengths, if_neg (by simpa [List.length_eq_zero] using h)]
    exact ⟨_, rfl⟩

/-- C8 (witness): the amended theorem applied to the empty array and to
the one-element array [3]. -/
theorem canonical_empty_is_assert_amended_witness :
    Code.canonical_from_lengths 0 [] = .panicked "no code lengths" ∧
    (∃ cs, Code.canonical_from_lengths 0 [3] = .ok cs) :=
  ⟨(canonical_empty_is_assert_amended 0 []).1 rfl,
   (canonical_empty_is_assert_amended 0 [3]).2 (by decide)⟩

/-- C9 (counterexample): on the 7-byte dynamic block body c9Input
(HLIT+HDIST = 320 entries; three symbol-18 skips reaching position 319
followed by a symbol-16 repeat of 3), the run-length expansion loop of
dynamic_huffman_codes attempts to write the 320-entry length array at
index 320: the result is the Rust index-out-of-bounds panic, not a
returned error. -/
theorem dynamic_expand_oob_panics_cex :
    (dynamic_huffman_codes (BitReaderLSB.mk0 c9Input)).map (fun _ => 0) =
      .panicked "index out of bounds: the len is 320" := by decide

/-- C9 (amended): the expansion loop's writes are bounds-checked, not
silently out of bounds: a symbol-16 run that would write at index 320
halts with an index-out-of-bounds panic (first conjunct: loop state
i = 319 of total 320, symbol 16 with repeat 3), and a run that
overshoots HLIT+HDIST-1 while staying below index 320 is accepted
without any error (second conjunct: total 5, two literals then a
symbol-16 repeat of 4 filling positions 2..5, final index 6 > 5). -/
theorem dynamic_expand_bounds_amended :
    (expandCodeLengths c9Tree 320 320 (BitReaderLSB.mk0 (ByteBuf.ofList [1])) 319 5
        (List.replicate 320 0)).map (fun _ => 0) =
      .panicked "index out of bounds: the len is 320" ∧
    (expandCodeLengths c9Tree 5 5 (BitReaderLSB.mk0 (ByteBuf.ofList [12])) 0 0
        (List.replicate 320 0)).map (fun p => (p.1.take 7, p.1.length)) =
      .ok ([1, 1, 1, 1, 1, 1, 0], 320) := by
  refine ⟨by decide, by decide⟩

/-- Eliminator for `?`-style propagation: the result of bindOutcome is
either the continuation on an Ok value, or a stop carrying the error or
panic with the decompressor unchanged. -/
theorem LoopStep.bindOutcome_cases {α : Type} {s : DeflateDecompressor}
    {o : RustOutcome α} {k : α → LoopStep} {P : LoopStep → Prop}
    (hok : ∀ a, o = .ok a → P (k a))
    (herr : ∀ e, o = .err e → P (.stop (.err e) s))
    (hpan : ∀ msg, o = .panicked msg → P (.stop (.panicked msg) s)) :
    P (LoopStep.bindOutcome s o k) := by
  rcases o with a | e | msg
  · exact hok a rfl
  · exact herr e rfl
  · exact hpan msg rfl

/-- The state a loop step carries (the decompressor it continues or
stops with). -/
def LoopStep.stateOf : LoopStep → DeflateDecompressor
  | .next s => s
  | .stop _ s => s

/-- What a loop step that stops with Ok still has to satisfy: the value
is the stopped state's available count, which covers the request unless
the stream completed. -/
def StepOkSpec (required : Nat) : LoopStep → Prop
  | .next _ => True
  | .stop r s' => ∀ m, r = .ok m → m = s'.available ∧ (required ≤ m ∨ s'.state = DState.complete)

theorem state_change_stepOkSpec (required : Nat) (bfinal : Bool)
    (s : DeflateDecompressor) : StepOkSpec required (state_change bfinal s) := by
  unfold state_change
  by_cases hb : bfinal
  · simp only [if_pos hb]
    trivial
  · rw [if_neg hb]
    apply LoopStep.bindOutcome_cases (P := StepOkSpec required)
    · intro a _
      trivial
    · intro e _ m hm
      cases hm
    · intro msg _ m hm
      cases hm

/-- Every iteration of the make_available loop satisfies StepOkSpec. -/
theorem make_available_step_stepOkSpec (required : Nat) (s : DeflateDecompressor) :
    StepOkSpec required (make_available_step required s) := by
  unfold make_available_step
  by_cases h0 : required ≤ s.available
  · rw [if_pos h0]
    intro m hm
    cases hm
    exact ⟨rfl, Or.inl h0⟩
  · rw [if_neg h0]
    cases hstate : s.state with
    | uncompressed bfinal unc =>
      refine LoopStep.bindOutcome_cases (P := StepOkSpec required)
        ?_ (fun e _ m hm => by cases hm) (fun msg _ m hm => by cases hm)
      intro a _
      dsimp only
      split
      · exact state_change_stepOkSpec required bfinal _
      · trivial
    | huffman bfinal hs =>
      dsimp only
      by_cases hcl : hs.copy_len = 0
      · rw [if_pos hcl]
        refine LoopStep.bindOutcome_cases (P := StepOkSpec required)
          ?_ (fun e _ m hm => by cases hm) (fun msg _ m hm => by cases hm)
        intro a _
        dsimp only
        split
        · refine LoopStep.bindOutcome_cases (P := StepOkSpec required)
            ?_ (fun e _ m hm => by cases hm) (fun msg _ m hm => by cases hm)
          intro w _
          trivial
        · split
          · exact state_change_stepOkSpec required bfinal _
          · split
            · refine LoopStep.bindOutcome_cases (P := StepOkSpec required)
                ?_ (fun e _ m hm => by cases hm) (fun msg _ m hm => by cases hm)
              intro p _
              trivial
            · split
              · intro m hm
                cases hm
              · intro m hm
                cases hm
      · rw [if_neg hcl]
        refine LoopStep.bindOutcome_cases (P := StepOkSpec required)
          ?_ (fun e _ m hm => by cases hm) (fun msg _ m hm => by cases hm)
        intro w _
        trivial
    | complete =>
      intro m hm
      cases hm
      exact ⟨rfl, Or.inr hstate⟩

/-- The stopping form of the step spec, as used by the loop lemma. -/
theorem make_available_step_stop_ok (required : Nat) (s : DeflateDecompressor)
    (m : Nat) (s' : DeflateDecompressor)
    (h : make_available_step required s = .stop (.ok m) s') :
    m = s'.available ∧ (required ≤ m ∨ s'.state = DState.complete) := by
  have hspec := make_available_step_stepOkSpec required s
  rw [h] at hspec
  exact hspec m rfl

theorem state_change_stateOf_available (bfinal : Bool) (s : DeflateDecompressor) :
    (state_change bfinal s).stateOf.available = s.available := by
  unfold state_change
  by_cases hb : bfinal
  · simp [if_pos hb, LoopStep.stateOf]
  · rw [if_neg hb]
    apply LoopStep.bindOutcome_cases
      (P := fun st => st.stateOf.available = s.available)
    · intro a _
      simp [LoopStep.stateOf]
    · intro e _
      simp [LoopStep.stateOf]
    · intro msg _
      simp [LoopStep.stateOf]

/-- One iteration of the make_available loop keeps `available` within
the window capacity (for requests within the capacity). -/
theorem make_available_step_le (required : Nat) (hreq : required ≤ 32768)
    (s : DeflateDecompressor) (hs : s.available ≤ 32768) :
    (make_available_step required s).stateOf.available ≤ 32768 := by
  unfold make_available_step
  by_cases h0 : required ≤ s.available
  · simpa [if_pos h0, LoopStep.stateOf] using hs
  · rw [if_neg h0]
    cases hstate : s.state with
    | uncompressed bfinal unc =>
      refine LoopStep.bindOutcome_cases
        (P := fun st => st.stateOf.available ≤ 32768)
        ?_ (fun e _ => hs) (fun msg _ => hs)
      intro a _
      dsimp only
      split
      · rw [state_change_stateOf_available]
        dsimp only
        omega
      · simp only [LoopStep.stateOf]
        omega
    | huffman bfinal hs2 =>
      dsimp only
      by_cases hcl : hs2.copy_len = 0
      · rw [if_pos hcl]
        refine LoopStep.bindOutcome_cases
          (P := fun st => st.stateOf.available ≤ 32768)
          ?_ (fun e _ => hs) (fun msg _ => hs)
        intro a _
        dsimp only
        split
        · refine LoopStep.bindOutcome_cases
            (P := fun st => st.stateOf.available ≤ 32768)
            ?_ (fun e _ => hs) (fun msg _ => hs)
          intro w _
          simp only [LoopStep.stateOf]
          omega
        · split
          · rw [state_change_stateOf_available]
            dsimp only
            omega
          · split
            · refine LoopStep.bindOutcome_cases
                (P := fun st => st.stateOf.available ≤ 32768)
                ?_ (fun e _ => hs) (fun msg _ => hs)
              intro p _
              simp only [LoopStep.stateOf]
              omega
            · split
              · simpa [LoopStep.stateOf] using hs
              · simpa [LoopStep.stateOf] using hs
      · rw [if_neg hcl]
        refine LoopStep.bindOutcome_cases
          (P := fun st => st.stateOf.available ≤ 32768)
          ?_ (fun e _ => hs) (fun msg _ => hs)
        intro w _
        simp only [LoopStep.stateOf]
        omega
    | complete =>
      simpa [LoopStep.stateOf] using hs

/-- Exit analysis of the make_available loop: a successful return value
is the final available count, and it covers `required` unless the
stream completed. -/
theorem make_available_loop_ok (required : Nat) :
    ∀ fuel s m s', make_available_loop required fuel s = (.ok m, s') →
      m = s'.available ∧ (required ≤ m ∨ s'.state = DState.complete) := by
  intro fuel
  induction fuel with
  | zero =>
    intro s m s' h
    simp [make_available_loop] at h
  | succ n ih =>
    intro s m s' h
    rw [make_available_loop] at h
    split at h
    · rename_i r s2 heq
      rw [Prod.mk.injEq] at h
      obtain ⟨h1, h2⟩ := h
      subst h1
      subst h2
      exact make_available_step_stop_ok required s m _ heq
    · exact ih _ _ _ h

/-- The make_available loop never pushes `available` above the window
capacity (for requests within the capacity). -/
theorem make_available_loop_le (required : Nat) (hreq : required ≤ 32768) :
    ∀ fuel s r s', s.available ≤ 32768 →
      make_available_loop required fuel s = (r, s') → s'.available ≤ 32768 := by
  intro fuel
  induction fuel with
  | zero =>
    intro s r s' hs h
    simp only [make_available_loop, Prod.mk.injEq] at h
    obtain ⟨-, h2⟩ := h
    subst h2
    exact hs
  | succ n ih =>
    intro s r s' hs h
    rw [make_available_loop] at h
    have hstep := make_available_step_le required hreq s hs
    split at h
    · rename_i r2 s2 heq
      rw [heq] at hstep
      rw [Prod.mk.injEq] at h
      obtain ⟨-, h2⟩ := h
      subst h2
      exact hstep
    · rename_i s2 heq
      rw [heq] at hstep
      exact ih s2 r s' hstep h

/-- make_available, Ok case: the returned count is the final available
count, and it covers the request unless the stream completed. -/
theorem make_available_ok (fuel : Nat) (s : DeflateDecompressor) (required m : Nat)
    (s' : DeflateDecompressor) (h : make_available fuel s required = (.ok m, s')) :
    m = s'.available ∧ (required ≤ m ∨ s'.state = DState.complete) := by
  unfold make_available at h
  by_cases hr : required > 32768
  · rw [if_pos hr] at h
    injection h with h1 h2
    cases h1
  · rw [if_neg hr] at h
    exact make_available_loop_ok required fuel s m s' h

/-- make_available keeps `available` within the window capacity. -/
theorem make_available_le (fuel : Nat) (s : DeflateDecompressor) (required : Nat)
    (r : RustOutcome Nat) (s' : DeflateDecompressor) (hs : s.available ≤ 32768)
    (h : make_available fuel s required = (r, s')) : s'.available ≤ 32768 := by
  unfold make_available at h
  by_cases hr : required > 32768
  · rw [if_pos hr] at h
    injection h with h1 h2
    subst h2
    exact hs
  · rw [if_neg hr] at h
    exact make_available_loop_le required (by omega) fuel s r s' hs h

/-- A fresh decompressor starts with no bytes available. -/
theorem new_available_eq_zero (input : ByteBuf) (d : DeflateDecompressor)
    (h : DeflateDecompressor.new input = .ok d) : d.available = 0 := by
  unfold DeflateDecompressor.new at h
  dsimp only at h
  cases hfb : DState.from_bitreader (BitReaderLSB.mk0 input) with
  | ok p =>
    obtain ⟨st, br2⟩ := p
    rw [hfb] at h
    simp only [bind, RustOutcome.bind, pure] at h
    cases h
    rfl
  | err e =>
    rw [hfb] at h
    simp only [bind, RustOutcome.bind] at h
    cases h
  | panicked msg =>
    rw [hfb] at h
    simp only [bind, RustOutcome.bind] at h
    cases h

/-- Each read call keeps `available` within the window capacity. -/
theorem dreadAux_available_le :
    ∀ fuel s bufLen rsf acc, s.available ≤ 32768 →
      (dreadAux fuel s bufLen rsf acc).state.available ≤ 32768 := by
  intro fuel
  induction fuel with
  | zero =>
    intro s bufLen rsf acc hs
    exact hs
  | succ n ih =>
    intro s bufLen rsf acc hs
    rw [dreadAux]
    by_cases hbig : bufLen - rsf > 32768
    · rw [if_pos hbig]
      have h1 := ih s 32768 0 [] hs
      dsimp only
      split
      · exact h1
      · exact ih _ _ _ _ h1
      · split
        · exact h1
        · exact h1
      · exact h1
    · rw [if_neg hbig]
      dsimp only
      split
      · rename_i s2 heq
        exact make_available_le n s _ _ s2 hs heq
      · rename_i a s2 hne heq
        have hle := make_available_le n s _ _ s2 hs heq
        have hok := make_available_ok n s _ _ s2 heq
        dsimp only
        omega
      · rename_i e s2 heq
        have hle := make_available_le n s _ _ s2 hs heq
        split
        · exact hle
        · exact hle
      · rename_i msg s2 heq
        exact make_available_le n s _ _ s2 hs heq

/-- A read call that returns an error (other than the model's fuel
sentinel) has written nothing to the caller's buffer in that call:
`read_so_far` was still 0 and no bytes beyond the incoming accumulator
were placed. -/
theorem dreadAux_err_no_bytes :
    ∀ fuel s bufLen rsf acc e, (dreadAux fuel s bufLen rsf acc).outcome = .err e →
      e ≠ Err.outOfFuel → rsf = 0 ∧ (dreadAux fuel s bufLen rsf acc).placed = acc := by
  intro fuel
  induction fuel with
  | zero =>
    intro s bufLen rsf acc e he hf
    rw [dreadAux] at he
    injection he with he2
    exact absurd he2.symm hf
  | succ n ih =>
    intro s bufLen rsf acc e
    rw [dreadAux]
    by_cases hbig : bufLen - rsf > 32768
    · rw [if_pos hbig]
      dsimp only
      split
      · intro he
        cases he
      · rename_i a hne heq
        intro he hf
        obtain ⟨hz, -⟩ := ih _ _ _ _ _ he hf
        exact (hne (by omega)).elim
      · rename_i e2 heq
        split
        · rename_i hz
          intro he hf
          injection he with he2
          subst he2
          obtain ⟨-, hp⟩ := ih s 32768 0 [] e2 heq hf
          refine ⟨hz, ?_⟩
          rw [hp]
          simp
        · intro he
          cases he
      · intro he
        cases he
    · rw [if_neg hbig]
      dsimp only
      split
      · intro he
        cases he
      · intro he
        cases he
      · split
        · rename_i hz
          intro he hf
          exact ⟨hz, rfl⟩
        · intro he
          cases he
      · intro he
        cases he

/-- C2 (counterexample): make_available does not stop "exactly as far
as needed": requesting 1 byte from a state whose current uncompressed
block still holds 2 bytes decodes and buffers both of them (returning
2) and consumes both remaining bytes from the byte source, beyond what
producing the 1 requested byte requires. -/
theorem make_available_overreads_uncompressed_cex :
    (make_available 10 c2State 1).1 = .ok 2 ∧
    (make_available 10 c2State 1).2.available = 2 ∧
    (make_available 10 c2State 1).2.bitreader.reader.size = 0 := by
  refine ⟨by decide, by decide, by decide⟩

/-- C2 (amended): a make_available call that returns Ok(m) has made
exactly m bytes available in the window, and m covers the request
unless the stream has reached true end of stream (the state machine
completed); the call may however decode and buffer more than requested
— an uncompressed block is drained eagerly up to the window capacity
rather than stopping at the requested count. -/
theorem make_available_covers_request (fuel required m : Nat)
    (s : DeflateDecompressor)
    (h : (make_available fuel s required).1 = .ok m) :
    m = (make_available fuel s required).2.available ∧
      (required ≤ m ∨ (make_available fuel s required).2.state = DState.complete) := by
  have hp : make_available fuel s required =
      (.ok m, (make_available fuel s required).2) := by
    rw [← h]
  exact make_available_ok fuel s required m _ hp

/-- Witness for C2 (amended): requesting 1 byte of c2State returns 2,
which is the final available count and covers the request. -/
theorem make_available_covers_request_witness :
    2 = (make_available 10 c2State 1).2.available ∧
      (1 ≤ 2 ∨ (make_available 10 c2State 1).2.state = DState.complete) :=
  make_available_covers_request 10 1 2 c2State (by decide)

/-- C10: the invariant available ≤ 32768 (the window capacity) holds
after construction (available starts at 0) and is preserved by every
make_available call and every read call. -/
theorem available_within_window_capacity (input : ByteBuf)
    (d : DeflateDecompressor) (fuel required bufLen : Nat)
    (s : DeflateDecompressor) (hs : s.available ≤ 32768) :
    (DeflateDecompressor.new input = .ok d → d.available ≤ 32768) ∧
    (make_available fuel s required).2.available ≤ 32768 ∧
    (dread fuel s bufLen).state.available ≤ 32768 := by
  refine ⟨fun h => ?_, ?_, ?_⟩
  · rw [new_available_eq_zero input d h]
    omega
  · exact make_available_le fuel s required _ _ hs rfl
  · exact dreadAux_available_le fuel s bufLen 0 [] hs

/-- Witness for C10 at a concrete state and input. -/
theorem available_within_window_capacity_witness :
    (DeflateDecompressor.new c7TruncInput = .ok c7TruncState →
      c7TruncState.available ≤ 32768) ∧
    (make_available 10 cCompleteState 1).2.available ≤ 32768 ∧
    (dread 10 cCompleteState 1).state.available ≤ 32768 :=
  available_within_window_capacity c7TruncInput c7TruncState 10 1 1 cCompleteState
    (by decide)

/-- C7 (counterexample): a stored block declaring 4 data bytes but
truncated after 2 of them. With the full stream the first 1-byte read
delivers byte 10, so the truncated stream's data determines its first
output bytes before the truncation point; yet on the truncated stream
the very first 1-byte read already fails with an EOF error instead of
delivering those bytes — the error surfaces on an earlier read call
than the one needing the missing data, because make_available eagerly
drains the whole uncompressed block. -/
theorem read_error_despite_valid_prefix_cex :
    readOnce c7TruncInput 1 = .ok (.err .eof, []) ∧
    readOnce c7FullInput 1 = .ok (.ok 1, [10]) := by
  refine ⟨by decide, by decide⟩

/-- C7 (amended): within a single read call the error discipline holds:
a read call that surfaces an error (other than the model's fuel
sentinel) has placed no bytes in the caller's buffer, i.e. partial data
always converts a subsequent error into a byte-count return, deferring
the error to a later call. (Across calls, a valid-then-corrupted
stream need not deliver its decodable prefix first: eager decoding can
surface the error before the bytes preceding the corruption are
delivered.) -/
theorem read_err_places_no_bytes (fuel bufLen : Nat) (s : DeflateDecompressor)
    (e : Err) (he : (dread fuel s bufLen).outcome = .err e)
    (hf : e ≠ Err.outOfFuel) :
    (dread fuel s bufLen).placed = [] :=
  (dreadAux_err_no_bytes fuel s bufLen 0 [] e he hf).2

/-- Witness for C7 (amended): the truncated stored block errors on its
first read and places nothing. -/
theorem read_err_places_no_bytes_witness :
    (dread 1000 c7TruncState 1).placed = [] :=
  read_err_places_no_bytes 1000 1 c7TruncState .eof (by decide) (by decide)

/-- C5 (code bug): chunked reads and one large read disagree. For the
stored-block stream producing 32768 bytes, a single read call with a
32769-byte buffer returns Ok(0) — reporting clean end-of-stream while
silently discarding the 32768 bytes its inner iteration produced (the
`Ok(0)` arm of the read loop drops `read_so_far`) — whereas reading
the same stream through repeated 1024-byte calls yields all 32768
bytes. -/
theorem read_large_buffer_reports_zero_bug :
    (DeflateDecompressor.new c5Input).map (fun d => (dread 1000 d 32769).outcome) =
      .ok (.ok 0) ∧
    (DeflateDecompressor.new c5Input).map (fun d => readCountRepeatedly 40 d 1024 0) =
      .ok 32768 := by
  refine ⟨by decide, by decide⟩

/-- C6: the hard-coded fixed Huffman tables equal the canonical codes
built from the RFC 1951 fixed length arrays, and reproduce the RFC
Appendix bit patterns for symbols 0 (8-bit 0b00110000 = 48), 256
(7-bit 0b0000000 = 0) and 280 (8-bit 0b11000000 = 192). -/
theorem fixed_codes_match_canonical :
    Code.canonical_from_lengths 0 fixedLitlenLengths = .ok fixed_huffman_codes.litlen ∧
    Code.canonical_from_lengths 0 fixedDistanceLengths = .ok fixed_huffman_codes.distance ∧
    fixed_huffman_codes.litlen.getD 0 (0, 0) = (0, CodeString.new 8 48) ∧
    fixed_huffman_codes.litlen.getD 256 (0, 0) = (256, CodeString.new 7 0) ∧
    fixed_huffman_codes.litlen.getD 280 (0, 0) = (280, CodeString.new 8 192) := by
  refine ⟨by decide, by decide, by decide, by decide, by decide⟩

theorem firstCode_lt (count : Nat → Nat) (l : Nat) :
    Code.firstCode count l < CodeString.U32 := by
  cases l with
  | zero => exact (by decide : (0 : Nat) < CodeString.U32)
  | succ m =>
    rw [Code.firstCode]
    exact Nat.mod_lt _ (by decide)

theorem buildNextCode_snd (count : Nat → Nat) :
    ∀ m, (Code.buildNextCode count m).2 = Code.firstCode count m := by
  intro m
  induction m with
  | zero => rfl
  | succ k ih =>
    rw [Code.buildNextCode, Code.firstCode, ← ih]

theorem buildNextCode_fst (count : Nat → Nat) :
    ∀ m j, (Code.buildNextCode count m).1 j =
      if 1 ≤ j ∧ j ≤ m then Code.firstCode count j else 0 := by
  intro m
  induction m with
  | zero =>
    intro j
    rw [if_neg (by omega)]
    rfl
  | succ k ih =>
    intro j
    have hsnd := buildNextCode_snd count k
    rw [Code.buildNextCode]
    cases hb : Code.buildNextCode count k with
    | mk tbl code =>
      rw [hb] at ih hsnd
      dsimp only at ih hsnd ⊢
      by_cases hj : j = k + 1
      · rw [if_pos hj, if_pos (by omega)]
        subst hj
        rw [hsnd, Code.firstCode]
      · rw [if_neg hj, ih j]
        by_cases hle : 1 ≤ j ∧ j ≤ k
        · rw [if_pos hle, if_pos (by omega)]
        · rw [if_neg hle, if_neg (by omega)]

theorem buildNextCode_fst_lt (count : Nat → Nat) (m j : Nat) :
    (Code.buildNextCode count m).1 j < CodeString.U32 := by
  rw [buildNextCode_fst]
  by_cases h : 1 ≤ j ∧ j ≤ m
  · rw [if_pos h]
    exact firstCode_lt count j
  · rw [if_neg h]
    decide

theorem mem_le_foldr_max : ∀ (ls : List Nat) (a : Nat), a ∈ ls → a ≤ ls.foldr max 0 := by
  intro ls
  induction ls with
  | nil =>
    intro a ha
    cases ha
  | cons b t ih =>
    intro a ha
    rw [List.foldr_cons]
    cases ha with
    | head => exact Nat.le_max_left _ _
    | tail _ hmem => exact Nat.le_trans (ih a hmem) (Nat.le_max_right _ _)

/-- Closed form of the assignment pass: symbol s of nonzero length L
receives the running next_code for L, which is the initial table value
plus the number of earlier symbols of the same length (u32). -/
theorem assignCodes_eq :
    ∀ (ls : List Nat) (nc : Nat → Nat), (∀ j, nc j < CodeString.U32) → ∀ v : Nat,
      Code.assignCodes nc v ls = (List.range ls.length).filterMap (fun s =>
        if ls.getD s 0 = 0 then none
        else some (v + s, CodeString.new (ls.getD s 0)
          ((nc (ls.getD s 0) + (ls.take s).count (ls.getD s 0)) % CodeString.U32))) := by
  intro ls
  induction ls with
  | nil =>
    intro nc hnc v
    rfl
  | cons j rest ih =>
    intro nc hnc v
    rw [Code.assignCodes, List.length_cons, List.range_succ_eq_map,
      List.filterMap_cons, List.filterMap_map]
    simp only [Function.comp_def, List.getD_cons_zero, List.getD_cons_succ,
      List.take_succ_cons, List.take_zero, List.count_nil, Nat.add_zero]
    by_cases hj : j = 0
    · rw [if_neg (fun hne => hne hj), if_pos hj]
      rw [ih nc hnc (v + 1)]
      apply List.filterMap_congr
      intro s hsmem
      by_cases h0 : rest.getD s 0 = 0
      · rw [if_pos h0, if_pos h0]
      · rw [if_neg h0, if_neg h0]
        subst hj
        have hv : v + 1 + s = v + (s + 1) := by omega
        have hbeq0 : ((0 : Nat) == rest.getD s 0) = false :=
          beq_eq_false_iff_ne.mpr (fun hh => h0 hh.symm)
        have hc : ((0 : Nat) :: rest.take s).count (rest.getD s 0) =
            (rest.take s).count (rest.getD s 0) := by
          rw [List.count_cons, hbeq0, if_neg (by decide), Nat.add_zero]
        rw [hv, hc]
    · rw [if_pos hj, if_neg hj, Nat.mod_eq_of_lt (hnc j)]
      have hnc' : ∀ k, (if k = j then (nc j + 1) % CodeString.U32 else nc k) <
          CodeString.U32 := by
        intro k
        by_cases hk : k = j
        · rw [if_pos hk]
          exact Nat.mod_lt _ (by decide)
        · rw [if_neg hk]
          exact hnc k
      rw [ih (fun k => if k = j then (nc j + 1) % CodeString.U32 else nc k) hnc' (v + 1)]
      congr 1
      apply List.filterMap_congr
      intro s hsmem
      dsimp only
      by_cases h0 : rest.getD s 0 = 0
      · rw [if_pos h0, if_pos h0]
      · rw [if_neg h0, if_neg h0]
        have hv : v + 1 + s = v + (s + 1) := by omega
        rw [hv, List.count_cons]
        by_cases hLj : rest.getD s 0 = j
        · rw [if_pos hLj, hLj]
          simp only [beq_self_eq_true, if_true]
          rw [Nat.mod_add_mod]
          have hm : nc j + 1 + (rest.take s).count j =
              nc j + ((rest.take s).count j + 1) := by omega
          rw [hm]
        · rw [if_neg hLj]
          have hbeq : (j == rest.getD s 0) = false :=
            beq_eq_false_iff_ne.mpr (fun hh => hLj hh.symm)
          rw [hbeq, if_neg (by decide)]
          exact rfl

/-- C4: canonical_from_lengths on a non-empty length array returns one
(symbol, code) pair per symbol of nonzero length, in ascending symbol
order, with the canonical assignment: the first code of each length L
follows the recurrence code = (code + count[L-1]) << 1 over 1..=max
starting from 0, and symbols of equal length receive consecutively
increasing bit patterns in symbol order. -/
theorem canonical_codes_are_canonical_assignment (fv : Nat) (ls : List Nat)
    (h : ls ≠ []) :
    Code.canonical_from_lengths fv ls = .ok (canonicalAssignment fv ls) := by
  rw [Code.canonical_from_lengths, if_neg (by simpa using h),
    Code.canonical_from_lengths_impl]
  congr 1
  rw [assignCodes_eq ls _ (fun j => buildNextCode_fst_lt _ _ j) fv]
  rw [canonicalAssignment]
  apply List.filterMap_congr
  intro s hsmem
  rw [List.mem_range] at hsmem
  dsimp only
  by_cases h0 : ls.getD s 0 = 0
  · rw [if_pos h0, if_pos h0]
  · rw [if_neg h0, if_neg h0]
    have hmem : ls.getD s 0 ∈ ls := by
      rw [List.getD_eq_getElem ls 0 hsmem]
      exact List.getElem_mem hsmem
    have hmax : ls.getD s 0 ≤ Code.maxLength ls := mem_le_foldr_max ls _ hmem
    rw [buildNextCode_fst, if_pos ⟨by omega, hmax⟩]

/-- Witness for C4 at the length array [2, 1, 3, 3]. -/
theorem canonical_codes_are_canonical_assignment_witness :
    Code.canonical_from_lengths 0 [2, 1, 3, 3] =
      .ok (canonicalAssignment 0 [2, 1, 3, 3]) :=
  canonical_codes_are_canonical_assignment 0 [2, 1, 3, 3] (by decide)

end Stdex


